import Mathlib

/-!
Shallow embedding of the keyword trend-checking pipeline
(async_trends_checker.py, google_trends_full.py, smart_keyword_prioritizer.py)
and proofs of the spec claims about it.

Scores are modelled as rationals; the random jitter term is passed as an
explicit parameter; the fallible body of each retry loop is modelled as a
function from the attempt index to an Except value.
-/

namespace TopicGen

/-! ## String utilities mirroring Python string operations -/

/-- Python min on two rationals, written so the kernel can evaluate it. -/
def qmin (a b : ℚ) : ℚ := if a ≤ b then a else b

/-- Python max on two rationals, written so the kernel can evaluate it. -/
def qmax (a b : ℚ) : ℚ := if a ≤ b then b else a

/-- Characters of a string, lower-cased (Python str.lower on the ASCII
keywords this repository handles). -/
def lowerChars (s : String) : List Char := s.toList.map Char.toLower

/-- True when the second list is an initial segment of the first
(helper for substring containment). -/
def startsWithChars : List Char → List Char → Bool
  | _, [] => true
  | [], _ :: _ => false
  | a :: as, b :: bs => a == b && startsWithChars as bs

/-- True when the second list occurs contiguously inside the first;
this is the Python substring test needle in hay. -/
def containsChars : List Char → List Char → Bool
  | [], needle => needle.isEmpty
  | a :: rest, needle => startsWithChars (a :: rest) needle || containsChars rest needle

/-- Python test term in keywordLower for a term given as a string. -/
def containsTerm (keywordLower : List Char) (term : String) : Bool :=
  containsChars keywordLower term.toList

/-- Python test any(t in keywordLower for t in terms). -/
def anyTerm (keywordLower : List Char) (terms : List String) : Bool :=
  terms.any (containsTerm keywordLower)

/-- Helper for countWords: the flag records whether the previous character
was part of a word. -/
def countWordsAux : List Char → Bool → Nat
  | [], _ => 0
  | c :: rest, inWord =>
    if c.isWhitespace then countWordsAux rest false
    else (if inWord then 0 else 1) + countWordsAux rest true

/-- Python len(keyword.split()): number of maximal whitespace-free runs. -/
def countWords (s : String) : Nat := countWordsAux s.toList false

/-! ## Trend scorer (AsyncTrendsChecker.calculate_mock_trend_score) -/

def high_value_terms : List String :=
  ["linux", "windows", "android", "install", "download", "tutorial",
   "commands", "admin", "security", "server", "development", "programming"]

def command_terms : List String := ["command", "cmd", "terminal", "bash"]

def job_terms : List String := ["job", "career", "salary", "interview"]

/-- First two steps of calculate_mock_trend_score: the length-bucket base
score plus the one-shot high-value vocabulary bonus (the for-loop with
break adds 25 at most once). -/
def mock_core (keyword : String) : ℚ :=
  let kl := lowerChars keyword
  let base : ℚ := if keyword.length < 15 then 20
                  else if keyword.length < 25 then 10 else 5
  if anyTerm kl high_value_terms then base + 25 else base

/-- Pre-clamp score of calculate_mock_trend_score: length bucket and
high-value bonus (mock_core), then the command bonus, the job bonus, and
the jitter term. -/
def mock_trend_pre (keyword : String) (jitter : ℚ) : ℚ :=
  let kl := lowerChars keyword
  let s1 := mock_core keyword
  let s2 := if anyTerm kl command_terms then s1 + 30 else s1
  let s3 := if anyTerm kl job_terms then s2 + 15 else s2
  s3 + jitter

/-- AsyncTrendsChecker.calculate_mock_trend_score with the random term made
an explicit jitter argument; final line is max(0, min(100, score)). -/
def calculate_mock_trend_score (keyword : String) (jitter : ℚ) : ℚ :=
  qmax 0 (qmin 100 (mock_trend_pre keyword jitter))

/-- AsyncTrendsChecker.categorize_trend_score. -/
def categorize_trend_score (score : ℚ) : String :=
  if 80 ≤ score then "very_high"
  else if 60 ≤ score then "high"
  else if 40 ≤ score then "medium"
  else if 20 ≤ score then "low"
  else if 0 < score then "very_low"
  else "no_data"

/-! ## Content-priority scorer (SmartKeywordPrioritizer.analyze_keyword_value) -/

def high_value_patterns : List (List String) :=
  [["how to", "tutorial", "guide", "step by step", "install", "setup", "configuration"],
   ["command", "commands", "cmd", "terminal", "bash", "shell", "script"],
   ["job", "jobs", "career", "salary", "interview", "certification", "skills"],
   ["beginner", "basic", "fundamentals", "introduction", "getting started"],
   ["troubleshoot", "error", "fix", "problem", "issue", "solution"],
   ["vs", "versus", "difference", "compare", "comparison", "alternative"],
   ["tool", "tools", "software", "application", "download", "free"]]

def search_intent_indicators : List String :=
  ["download", "install", "tutorial", "how", "guide", "commands",
   "example", "free", "best", "top", "list", "course", "learn"]

def beginner_terms : List String :=
  ["basic", "beginner", "introduction", "getting started", "fundamentals"]

def expert_terms : List String :=
  ["kernel", "system", "architecture", "development", "programming"]

def commercial_terms : List String := ["download", "free", "price", "cost", "buy"]

def problem_terms : List String := ["error", "fix", "problem", "troubleshoot", "issue"]

def trending_terms : List String := ["ai", "docker", "kubernetes", "cloud", "devops"]

/-- Steps 1 to 5 of analyze_keyword_value: one-shot pattern bonus, search
intent bonus, the content-type elif chain, the difficulty elif chain, and
the word-count adjustment; each regex pattern of step 1 is an alternation
of literal terms, so a match is any-substring. -/
def priority_core (keyword : String) : ℚ :=
  let kl := lowerChars keyword
  let s0 : ℚ := 0
  let s1 := if high_value_patterns.any (fun p => anyTerm kl p) then s0 + 25 else s0
  let s2 := if anyTerm kl search_intent_indicators then s1 + 15 else s1
  let s3 := if anyTerm kl ["tutorial", "guide", "how", "step"] then s2 + 20
            else if anyTerm kl ["command", "commands", "terminal"] then s2 + 15
            else if anyTerm kl ["job", "career", "salary"] then s2 + 18
            else if anyTerm kl ["vs", "versus", "difference", "compare"] then s2 + 22
            else s2
  let s4 := if anyTerm kl beginner_terms then s3 + 25
            else if anyTerm kl expert_terms then s3 + 10
            else s3
  let wc := countWords keyword
  if 2 ≤ wc ∧ wc ≤ 4 then s4 + 15
  else if wc = 1 then s4 + 5
  else s4 - 5

/-- Pre-clamp score of analyze_keyword_value: steps 1 to 5 (priority_core),
then the commercial-intent bonus (step 6), the problem-solving bonus
(step 7), the trending-technology bonus (step 8), and the jitter term. -/
def priority_pre (keyword : String) (jitter : ℚ) : ℚ :=
  let kl := lowerChars keyword
  let s5 := priority_core keyword
  let s6 := if anyTerm kl commercial_terms then s5 + 12 else s5
  let s7 := if anyTerm kl problem_terms then s6 + 20 else s6
  let s8 := if anyTerm kl trending_terms then s7 + 18 else s7
  s8 + jitter

/-- The priority_score field of SmartKeywordPrioritizer.analyze_keyword_value:
max(0, min(100, score)) with the jitter explicit. -/
def analyze_keyword_value (keyword : String) (jitter : ℚ) : ℚ :=
  qmax 0 (qmin 100 (priority_pre keyword jitter))

/-- SmartKeywordPrioritizer.assess_content_potential. -/
def assess_content_potential (score : ℚ) : String :=
  if 70 ≤ score then "excellent"
  else if 50 ≤ score then "good"
  else if 30 ≤ score then "fair"
  else "poor"

/-! ## Per-keyword result records (rows built by check_single_keyword) -/

/-- Row shape produced by AsyncTrendsChecker.check_single_keyword; the
checked_date wall-clock field is omitted. -/
structure KeywordResult where
  keyword : String
  trend_score : ℚ
  avg_interest : ℚ
  max_interest : ℚ
  min_interest : ℚ
  search_volume_category : String
  has_trend_data : Bool
  error : Option String
  attempt : Nat
deriving DecidableEq

/-- Success row of check_single_keyword for a trend score obtained at the
given one-based attempt. -/
def successResult (keyword : String) (score : ℚ) (attempt : Nat) : KeywordResult :=
  { keyword := keyword
    trend_score := score
    avg_interest := score
    max_interest := qmin 100 (score * (6/5))
    min_interest := qmax 0 (score * (3/10))
    search_volume_category := categorize_trend_score score
    has_trend_data := decide (0 < score)
    error := none
    attempt := attempt }

/-- Failure row of check_single_keyword after the last attempt. -/
def failureResult (keyword : String) (e : String) (attempt : Nat) : KeywordResult :=
  { keyword := keyword
    trend_score := 0
    avg_interest := 0
    max_interest := 0
    min_interest := 0
    search_volume_category := "no_data"
    has_trend_data := false
    error := some e
    attempt := attempt }

/-! ## Retry loop of AsyncTrendsChecker.check_single_keyword -/

/-- Observable behaviour of one run of the retry loop: how many attempts the
loop made, the backoff sleeps it performed in order (in seconds, as passed
to asyncio.sleep), and the returned row; result none is the Python implicit
None return when the loop body never runs. -/
structure CheckTrace where
  attempts : Nat
  sleeps : List Nat
  result : Option KeywordResult
deriving DecidableEq

/-- Body of the loop for attempt in range(max_retries) of
check_single_keyword. The first argument is the number of attempts still
allowed (max_retries - attempt); the second is the current zero-based
attempt index, so remaining = 1 is exactly the Python test
attempt == max_retries - 1. The op argument is the outcome of the try
block at each attempt index: a trend score, or a raised error message. -/
def checkGo (op : Nat → Except String ℚ) (k : String) : Nat → Nat → CheckTrace
  | 0, _ => ⟨0, [], none⟩
  | remaining + 1, attempt =>
    match op attempt with
    | .ok score => ⟨1, [], some (successResult k score (attempt + 1))⟩
    | .error e =>
      match remaining with
      | 0 => ⟨1, [], some (failureResult k e (attempt + 1))⟩
      | r + 1 =>
        let rest := checkGo op k (r + 1) (attempt + 1)
        ⟨rest.attempts + 1, 2 ^ attempt :: rest.sleeps, rest.result⟩

/-- AsyncTrendsChecker.check_single_keyword: run the attempt loop from
attempt index 0. The max_retries constructor argument is an Int so that
nonpositive configurations are representable, as in Python. -/
def check_single_keyword (op : Nat → Except String ℚ) (maxRetries : Int)
    (k : String) : CheckTrace :=
  checkGo op k maxRetries.toNat 0

/-- A row is terminal when it is a success row (no error) or a
failure-after-retries row. -/
def isTerminal (r : KeywordResult) : Bool :=
  r.error = none ||
    (r.error.isSome && r.trend_score = 0 &&
      r.search_volume_category = "no_data" && r.has_trend_data = false)

/-! ## Concurrency-bounded batch executor
(AsyncTrendsChecker.process_keywords_batch) -/

/-- AsyncTrendsChecker.process_keywords_batch: gather the per-keyword
results in task order and keep only dict results, dropping anything else
(the isinstance(result, dict) filter). The semaphore bound maxConcurrent
only schedules tasks and cannot change the gathered values, so it is an
inert parameter here. asyncio.gather preserves task order, which is the
order of the batch list. The op argument gives each keyword its per-attempt
try-block outcome. -/
def process_keywords_batch (maxConcurrent : Nat) (maxRetries : Int)
    (op : String → Nat → Except String ℚ) (batch : List String) :
    List KeywordResult :=
  let _ := maxConcurrent
  batch.filterMap (fun k => (check_single_keyword (op k) maxRetries k).result)

/-! ## Batcher (the slicing loop of process_all_keywords and of
check_google_trends_full) -/

/-- Error raised by Python when the batching loop is misconfigured:
range with step 0 raises ValueError. -/
inductive PyErr where
  | valueError
deriving DecidableEq

/-- Fuel-driven chunking: with fuel at least the list length and size at
least 1 this computes the slices keywords[i : i + size] for
i = 0, size, 2*size, ... of the Python loop. The fuel argument only makes
the recursion structural; makeBatches below always supplies enough. -/
def chunksFuel (size : Nat) : Nat → List α → List (List α)
  | 0, _ => []
  | _, [] => []
  | fuel + 1, a :: l => (a :: l).take size :: chunksFuel size fuel ((a :: l).drop size)

/-- Slices of the list in order, each of the given size except possibly the
final one. -/
def chunks (l : List α) (size : Nat) : List (List α) :=
  chunksFuel size l.length l

/-- Batcher over an Int batch size, with the Python semantics of
range(0, len(keywords), batchSize): step 0 raises ValueError; a negative
step gives an empty range (start 0 never moves below itself), so no batch
is formed and no error is raised; a positive step yields the usual slices. -/
def makeBatches (l : List α) (batchSize : Int) : Except PyErr (List (List α)) :=
  if batchSize = 0 then .error .valueError
  else if batchSize < 0 then .ok []
  else .ok (chunks l batchSize.toNat)

/-- AsyncTrendsChecker.process_all_keywords: form the batches, run the batch
executor on each in order, and concatenate the batch results. Persistence
side effects (save_progress) and the inter-batch delay are not modelled. -/
def process_all_keywords (maxConcurrent : Nat) (maxRetries : Int)
    (op : String → Nat → Except String ℚ) (keywords : List String)
    (batchSize : Int) : Except PyErr (List KeywordResult) :=
  match makeBatches keywords batchSize with
  | .error e => .error e
  | .ok bs => .ok (bs.map (process_keywords_batch maxConcurrent maxRetries op)).flatten

/-! ## Batch-level retry loop of check_google_trends_full -/

/-- Row shape of the google_trends_full results list; the checked_date and
related-query count fields are omitted. -/
structure FullRow where
  keyword : String
  avg_interest : ℚ
  max_interest : ℚ
  min_interest : ℚ
  trend_score : ℚ
  has_trend_data : Bool
  error : Option String
deriving DecidableEq

/-- Row appended for each keyword of a batch after max_retries failed
attempts in check_google_trends_full. -/
def fullFailureRow (keyword : String) (e : String) : FullRow :=
  { keyword := keyword
    avg_interest := 0
    max_interest := 0
    min_interest := 0
    trend_score := 0
    has_trend_data := false
    error := some e }

/-- Observable behaviour of one run of the while-retry loop of
check_google_trends_full for one batch: attempts made, backoff sleeps in
seconds, and the rows appended to results for this batch. -/
structure FullTrace where
  attempts : Nat
  sleeps : List Nat
  rows : List FullRow
deriving DecidableEq

/-- Body of the loop while retry_count < max_retries and not success. The
first argument is max_retries - retry_count (the guard), the second the
current retry_count. On an exception the code increments retry_count and
either sleeps (2 ** retry_count) * 10 seconds and retries, or, when
retry_count has reached max_retries, appends one failure row per keyword of
the batch. The op argument is the outcome of the try block (payload build
plus parsing) at each retry count: the rows it would append, or a raised
error message. -/
def fullGo (op : Nat → Except String (List FullRow)) (batch : List String) :
    Nat → Nat → FullTrace
  | 0, rc => ⟨rc, [], []⟩
  | remaining + 1, rc =>
    match op rc with
    | .ok rows => ⟨rc + 1, [], rows⟩
    | .error e =>
      match remaining with
      | 0 => ⟨rc + 1, [], batch.map (fun k => fullFailureRow k e)⟩
      | r + 1 =>
        let rest := fullGo op batch (r + 1) (rc + 1)
        ⟨rest.attempts, 2 ^ (rc + 1) * 10 :: rest.sleeps, rest.rows⟩

/-- The retry loop of check_google_trends_full for one batch, started at
retry_count = 0. -/
def full_batch_retry (op : Nat → Except String (List FullRow))
    (maxRetries : Nat) (batch : List String) : FullTrace :=
  fullGo op batch maxRetries 0

/-! ## Resume logic of check_google_trends_full (lines 41 to 50) -/

/-- The resume filter: prior is the parsed prior output file, or none when
reading it raised FileNotFoundError. On resume the processed set is the
keyword column of every existing row, and the keyword list is filtered to
the keywords not in that set; a missing file leaves the list untouched. -/
def resumeFilter (keywords : List String) (prior : Option (List FullRow)) :
    List String :=
  match prior with
  | none => keywords
  | some rows =>
    let processed := rows.map (fun r => r.keyword)
    keywords.filter (fun k => ¬ processed.contains k)

/-! ## Helper lemmas -/

theorem clamp_bounds (x : ℚ) : 0 ≤ qmax 0 (qmin 100 x) ∧ qmax 0 (qmin 100 x) ≤ 100 := by
  unfold qmax qmin
  split_ifs <;> constructor <;> linarith

theorem cat_eq_very_high (s : ℚ) :
    categorize_trend_score s = "very_high" ↔ 80 ≤ s := by
  unfold categorize_trend_score
  split_ifs with h1 h2 h3 h4 h5
  · exact iff_of_true rfl h1
  · exact iff_of_false (by decide) h1
  · exact iff_of_false (by decide) h1
  · exact iff_of_false (by decide) h1
  · exact iff_of_false (by decide) h1
  · exact iff_of_false (by decide) h1

theorem cat_eq_high (s : ℚ) :
    categorize_trend_score s = "high" ↔ 60 ≤ s ∧ s < 80 := by
  unfold categorize_trend_score
  split_ifs with h1 h2 h3 h4 h5
  · exact iff_of_false (by decide) (fun h => absurd h1 (not_le.mpr h.2))
  · exact iff_of_true rfl ⟨h2, not_le.mp h1⟩
  · exact iff_of_false (by decide) (fun h => absurd h.1 h2)
  · exact iff_of_false (by decide) (fun h => absurd h.1 h2)
  · exact iff_of_false (by decide) (fun h => absurd h.1 h2)
  · exact iff_of_false (by decide) (fun h => absurd h.1 h2)

theorem cat_eq_medium (s : ℚ) :
    categorize_trend_score s = "medium" ↔ 40 ≤ s ∧ s < 60 := by
  unfold categorize_trend_score
  split_ifs with h1 h2 h3 h4 h5
  · exact iff_of_false (by decide) (fun h => absurd h1 (not_le.mpr (h.2.trans (by norm_num))))
  · exact iff_of_false (by decide) (fun h => absurd h2 (not_le.mpr h.2))
  · exact iff_of_true rfl ⟨h3, not_le.mp h2⟩
  · exact iff_of_false (by decide) (fun h => absurd h.1 h3)
  · exact iff_of_false (by decide) (fun h => absurd h.1 h3)
  · exact iff_of_false (by decide) (fun h => absurd h.1 h3)

theorem cat_eq_low (s : ℚ) :
    categorize_trend_score s = "low" ↔ 20 ≤ s ∧ s < 40 := by
  unfold categorize_trend_score
  split_ifs with h1 h2 h3 h4 h5
  · exact iff_of_false (by decide) (fun h => absurd h1 (not_le.mpr (h.2.trans (by norm_num))))
  · exact iff_of_false (by decide) (fun h => absurd h2 (not_le.mpr (h.2.trans (by norm_num))))
  · exact iff_of_false (by decide) (fun h => absurd h3 (not_le.mpr h.2))
  · exact iff_of_true rfl ⟨h4, not_le.mp h3⟩
  · exact iff_of_false (by decide) (fun h => absurd h.1 h4)
  · exact iff_of_false (by decide) (fun h => absurd h.1 h4)

theorem cat_eq_very_low (s : ℚ) :
    categorize_trend_score s = "very_low" ↔ 0 < s ∧ s < 20 := by
  unfold categorize_trend_score
  split_ifs with h1 h2 h3 h4 h5
  · exact iff_of_false (by decide) (fun h => absurd h1 (not_le.mpr (h.2.trans (by norm_num))))
  · exact iff_of_false (by decide) (fun h => absurd h2 (not_le.mpr (h.2.trans (by norm_num))))
  · exact iff_of_false (by decide) (fun h => absurd h3 (not_le.mpr (h.2.trans (by norm_num))))
  · exact iff_of_false (by decide) (fun h => absurd h4 (not_le.mpr h.2))
  · exact iff_of_true rfl ⟨h5, not_le.mp h4⟩
  · exact iff_of_false (by decide) (fun h => absurd h.1 h5)

theorem cat_eq_no_data (s : ℚ) :
    categorize_trend_score s = "no_data" ↔ s ≤ 0 := by
  unfold categorize_trend_score
  split_ifs with h1 h2 h3 h4 h5
  · exact iff_of_false (by decide) (fun h => absurd h1 (not_le.mpr (by linarith)))
  · exact iff_of_false (by decide) (fun h => absurd h2 (not_le.mpr (by linarith)))
  · exact iff_of_false (by decide) (fun h => absurd h3 (not_le.mpr (by linarith)))
  · exact iff_of_false (by decide) (fun h => absurd h4 (not_le.mpr (by linarith)))
  · exact iff_of_false (by decide) (fun h => absurd h5 (not_lt.mpr h))
  · exact iff_of_true rfl (not_lt.mp h5)

theorem pot_eq_excellent (s : ℚ) :
    assess_content_potential s = "excellent" ↔ 70 ≤ s := by
  unfold assess_content_potential
  split_ifs with h1 h2 h3
  · exact iff_of_true rfl h1
  · exact iff_of_false (by decide) h1
  · exact iff_of_false (by decide) h1
  · exact iff_of_false (by decide) h1

theorem pot_eq_good (s : ℚ) :
    assess_content_potential s = "good" ↔ 50 ≤ s ∧ s < 70 := by
  unfold assess_content_potential
  split_ifs with h1 h2 h3
  · exact iff_of_false (by decide) (fun h => absurd h1 (not_le.mpr h.2))
  · exact iff_of_true rfl ⟨h2, not_le.mp h1⟩
  · exact iff_of_false (by decide) (fun h => absurd h.1 h2)
  · exact iff_of_false (by decide) (fun h => absurd h.1 h2)

theorem pot_eq_fair (s : ℚ) :
    assess_content_potential s = "fair" ↔ 30 ≤ s ∧ s < 50 := by
  unfold assess_content_potential
  split_ifs with h1 h2 h3
  · exact iff_of_false (by decide) (fun h => absurd h1 (not_le.mpr (h.2.trans (by norm_num))))
  · exact iff_of_false (by decide) (fun h => absurd h2 (not_le.mpr h.2))
  · exact iff_of_true rfl ⟨h3, not_le.mp h2⟩
  · exact iff_of_false (by decide) (fun h => absurd h.1 h3)

theorem pot_eq_poor (s : ℚ) :
    assess_content_potential s = "poor" ↔ s < 30 := by
  unfold assess_content_potential
  split_ifs with h1 h2 h3
  · exact iff_of_false (by decide) (fun h => absurd h1 (not_le.mpr (by linarith)))
  · exact iff_of_false (by decide) (fun h => absurd h2 (not_le.mpr (by linarith)))
  · exact iff_of_false (by decide) (fun h => absurd h3 (not_le.mpr h))
  · exact iff_of_true rfl (not_le.mp h3)

/-! ## Claim theorems -/

/-- C4: for every input keyword string and every value of the random jitter
term, the score produced by either scorer lies in the closed interval from
0 to 100, regardless of the intermediate arithmetic. -/
theorem scores_always_clamped (keyword : String) (jitter : ℚ) :
    (0 ≤ calculate_mock_trend_score keyword jitter ∧
      calculate_mock_trend_score keyword jitter ≤ 100) ∧
    (0 ≤ analyze_keyword_value keyword jitter ∧
      analyze_keyword_value keyword jitter ≤ 100) :=
  ⟨clamp_bounds (mock_trend_pre keyword jitter),
   clamp_bounds (priority_pre keyword jitter)⟩

/-- C7 counterexample: the two categorizers do not share a threshold
ladder. The trend categorizer separates the scores 20 and 19 (the claimed
boundary at 20), while assess_content_potential maps both to the same
label, so the claimed common six-bucket shape fails for the
content-priority scorer. -/
theorem shared_ladder_counterexample :
    assess_content_potential 20 = assess_content_potential 19 ∧
    categorize_trend_score 20 ≠ categorize_trend_score 19 ∧
    assess_content_potential 20 = "poor" ∧
    categorize_trend_score 20 = "low" := by
  refine ⟨by decide, by decide, by decide, by decide⟩

/-- C7 amended: the trend categorizer implements the six-bucket ladder with
boundaries 80, 60, 40, 20 and 0, while assess_content_potential implements
a four-bucket ladder with boundaries 70, 50 and 30; each is a
deterministic monotone step function of the score alone, but the two
scorers do not share boundaries or bucket count. -/
theorem category_ladders (s : ℚ) :
    (categorize_trend_score s = "very_high" ↔ 80 ≤ s) ∧
    (categorize_trend_score s = "high" ↔ 60 ≤ s ∧ s < 80) ∧
    (categorize_trend_score s = "medium" ↔ 40 ≤ s ∧ s < 60) ∧
    (categorize_trend_score s = "low" ↔ 20 ≤ s ∧ s < 40) ∧
    (categorize_trend_score s = "very_low" ↔ 0 < s ∧ s < 20) ∧
    (categorize_trend_score s = "no_data" ↔ s ≤ 0) ∧
    (assess_content_potential s = "excellent" ↔ 70 ≤ s) ∧
    (assess_content_potential s = "good" ↔ 50 ≤ s ∧ s < 70) ∧
    (assess_content_potential s = "fair" ↔ 30 ≤ s ∧ s < 50) ∧
    (assess_content_potential s = "poor" ↔ s < 30) :=
  ⟨cat_eq_very_high s, cat_eq_high s, cat_eq_medium s, cat_eq_low s,
   cat_eq_very_low s, cat_eq_no_data s, pot_eq_excellent s, pot_eq_good s,
   pot_eq_fair s, pot_eq_poor s⟩

/-- C2: on resume the prior output rows give the set of already-processed
keywords and the keyword source is filtered so every keyword of that set
is skipped entirely, including keywords whose only prior row is a failure
record; a missing prior output file is not an error and leaves the keyword
list untouched. -/
theorem resume_skips_processed (keywords : List String) (rows : List FullRow)
    (k : String) :
    resumeFilter keywords none = keywords ∧
    (k ∈ resumeFilter keywords (some rows) ↔
      k ∈ keywords ∧ ∀ r ∈ rows, r.keyword ≠ k) ∧
    (∀ r ∈ rows, r.keyword ∉ resumeFilter keywords (some rows)) := by
  have hiff : ∀ x : String, x ∈ resumeFilter keywords (some rows) ↔
      x ∈ keywords ∧ ∀ r ∈ rows, r.keyword ≠ x := by
    intro x
    simp only [resumeFilter, List.mem_filter, decide_eq_true_eq]
    constructor
    · rintro ⟨hk, hc⟩
      refine ⟨hk, fun r hr he => hc ?_⟩
      exact List.elem_iff.mpr (he ▸ List.mem_map_of_mem (fun r => r.keyword) hr)
    · rintro ⟨hk, hc⟩
      refine ⟨hk, fun hcon => ?_⟩
      obtain ⟨r, hr, he⟩ := List.mem_map.mp (List.elem_iff.mp hcon)
      exact hc r hr he
  refine ⟨rfl, hiff k, fun r hr hmem => ?_⟩
  exact ((hiff r.keyword).mp hmem).2 r hr rfl

theorem chunksFuel_nil (size : Nat) (fuel : Nat) :
    chunksFuel size fuel ([] : List α) = [] := by
  cases fuel <;> rfl

theorem chunksFuel_flatten (size : Nat) (h : 1 ≤ size) :
    ∀ (fuel : Nat) (l : List α), l.length ≤ fuel →
      (chunksFuel size fuel l).flatten = l := by
  intro fuel
  induction fuel with
  | zero =>
    intro l hl
    rw [List.length_eq_zero.mp (Nat.le_zero.mp hl)]
    rfl
  | succ fuel ih =>
    intro l hl
    match l with
    | [] => rfl
    | a :: l =>
      have hd : ((a :: l).drop size).length ≤ fuel := by
        rw [List.length_drop]
        simp only [List.length_cons] at hl ⊢
        omega
      simp only [chunksFuel, List.flatten_cons, ih _ hd, List.take_append_drop]

theorem chunksFuel_mem_le (size : Nat) (h : 1 ≤ size) :
    ∀ (fuel : Nat) (l : List α), ∀ b ∈ chunksFuel size fuel l,
      b.length ≤ size ∧ b ≠ [] := by
  intro fuel
  induction fuel with
  | zero =>
    intro l b hb
    simp [chunksFuel] at hb
  | succ fuel ih =>
    intro l b hb
    match l with
    | [] => simp [chunksFuel] at hb
    | a :: l =>
      simp only [chunksFuel, List.mem_cons] at hb
      rcases hb with hb | hb
      · subst hb
        constructor
        · simp
        · have : size = (size - 1) + 1 := by omega
          rw [this]
          simp [List.take_succ_cons]
      · exact ih _ b hb

theorem chunksFuel_dropLast_len (size : Nat) (h : 1 ≤ size) :
    ∀ (fuel : Nat) (l : List α), l.length ≤ fuel →
      ∀ b ∈ (chunksFuel size fuel l).dropLast, b.length = size := by
  intro fuel
  induction fuel with
  | zero =>
    intro l hl b hb
    rw [List.length_eq_zero.mp (Nat.le_zero.mp hl)] at hb
    simp [chunksFuel] at hb
  | succ fuel ih =>
    intro l hl b hb
    match l with
    | [] => simp [chunksFuel] at hb
    | a :: l =>
      simp only [chunksFuel] at hb
      match hrest : (a :: l).drop size with
      | [] =>
        rw [hrest, chunksFuel_nil] at hb
        simp at hb
      | x :: xs =>
        have hlt : size < (a :: l).length := by
          by_contra hge
          rw [List.drop_eq_nil_of_le (Nat.le_of_not_lt hge)] at hrest
          exact List.noConfusion hrest
        have hfuel1 : 1 ≤ fuel := by
          have := List.length_cons a l ▸ hl
          simp only [List.length_cons] at hlt
          omega
        have hcons : chunksFuel size fuel ((a :: l).drop size) ≠ [] := by
          rw [hrest]
          match fuel, hfuel1 with
          | f + 1, _ => simp [chunksFuel]
        rw [List.dropLast_cons_of_ne_nil hcons] at hb
        rcases List.mem_cons.mp hb with hb | hb
        · subst hb
          rw [List.length_take]
          omega
        · have hd : ((a :: l).drop size).length ≤ fuel := by
            rw [List.length_drop]
            simp only [List.length_cons] at hl ⊢
            omega
          exact ih _ hd b hb

/-- C5: for every keyword sequence and every positive batch size, the
batcher succeeds and concatenating its batches in order reconstructs the
input exactly; every batch except possibly the final one has exactly
batchSize elements, and every batch is nonempty and no longer than
batchSize. -/
theorem batches_reconstruct_input {α : Type} (l : List α) (batchSize : Int)
    (h : 0 < batchSize) :
    ∃ bs, makeBatches l batchSize = .ok bs ∧
      bs.flatten = l ∧
      (∀ b ∈ bs.dropLast, b.length = batchSize.toNat) ∧
      (∀ b ∈ bs, b.length ≤ batchSize.toNat ∧ b ≠ []) := by
  have hs : 1 ≤ batchSize.toNat := by omega
  refine ⟨chunks l batchSize.toNat, ?_, ?_, ?_, ?_⟩
  · unfold makeBatches
    rw [if_neg (by omega), if_neg (by omega)]
  · exact chunksFuel_flatten _ hs _ _ le_rfl
  · exact chunksFuel_dropLast_len _ hs _ _ le_rfl
  · exact chunksFuel_mem_le _ hs _ _

/-- C5 witness: the batcher at batch size 2 on a three-element list. -/
theorem batches_reconstruct_input_witness :
    (0 : Int) < 2 ∧
    ∃ bs, makeBatches ["a", "b", "c"] (2 : Int) = .ok bs ∧
      bs.flatten = ["a", "b", "c"] ∧
      (∀ b ∈ bs.dropLast, b.length = (2 : Int).toNat) ∧
      (∀ b ∈ bs, b.length ≤ (2 : Int).toNat ∧ b ≠ []) :=
  ⟨by decide, batches_reconstruct_input ["a", "b", "c"] 2 (by decide)⟩

/-- C2 witness: a keyword whose only prior row is a failure record is
skipped on resume, and a missing prior file leaves the list untouched. -/
theorem resume_skips_processed_witness :
    fullFailureRow "a" "boom" ∈ [fullFailureRow "a" "boom"] ∧
    (fullFailureRow "a" "boom").keyword ∉
      resumeFilter ["a", "b"] (some [fullFailureRow "a" "boom"]) ∧
    resumeFilter ["a", "b"] none = ["a", "b"] :=
  ⟨List.mem_singleton.mpr rfl,
   (resume_skips_processed ["a", "b"] [fullFailureRow "a" "boom"] "a").2.2
     (fullFailureRow "a" "boom") (List.mem_singleton.mpr rfl),
   (resume_skips_processed ["a", "b"] [fullFailureRow "a" "boom"] "a").1⟩

/-- C9: with a nonpositive max_retries the attempt loop body never runs,
check_single_keyword returns None for every keyword, and
process_keywords_batch filters every None away, so every keyword of every
batch is silently dropped with no success row, no failure row and no error
raised. -/
theorem nonpositive_retries_drop_keywords (maxRetries : Int)
    (h : maxRetries ≤ 0) (maxConcurrent : Nat)
    (op : String → Nat → Except String ℚ) (batch : List String) (k : String) :
    (check_single_keyword (op k) maxRetries k).result = none ∧
    process_keywords_batch maxConcurrent maxRetries op batch = [] := by
  have ht : maxRetries.toNat = 0 := by omega
  constructor
  · rw [check_single_keyword, ht]
    rfl
  · rw [process_keywords_batch]
    rw [List.filterMap_eq_nil_iff]
    intro a _
    rw [check_single_keyword, ht]
    rfl

/-- C9 witness: at max_retries zero a two-keyword batch produces no output
at all. -/
theorem nonpositive_retries_drop_keywords_witness :
    (0 : Int) ≤ 0 ∧
    process_keywords_batch 5 (0 : Int) (fun _ _ => .ok 50) ["a", "b"] = [] :=
  ⟨le_refl 0,
   (nonpositive_retries_drop_keywords 0 (le_refl 0) 5 (fun _ _ => .ok 50)
     ["a", "b"] "a").2⟩

theorem checkGo_ok (op : Nat → Except String ℚ) (k : String)
    (remaining attempt : Nat) (score : ℚ) (hop : op attempt = .ok score) :
    checkGo op k (remaining + 1) attempt =
      ⟨1, [], some (successResult k score (attempt + 1))⟩ := by
  cases remaining with
  | zero =>
    conv_lhs => rw [checkGo]
    rw [hop]
  | succ r =>
    conv_lhs => rw [checkGo]
    rw [hop]

theorem checkGo_error_last (op : Nat → Except String ℚ) (k : String)
    (attempt : Nat) (e : String) (hop : op attempt = .error e) :
    checkGo op k 1 attempt = ⟨1, [], some (failureResult k e (attempt + 1))⟩ := by
  conv_lhs => rw [checkGo]
  rw [hop]

theorem checkGo_error_retry (op : Nat → Except String ℚ) (k : String)
    (r attempt : Nat) (e : String) (hop : op attempt = .error e) :
    checkGo op k (r + 2) attempt =
      ⟨(checkGo op k (r + 1) (attempt + 1)).attempts + 1,
       2 ^ attempt :: (checkGo op k (r + 1) (attempt + 1)).sleeps,
       (checkGo op k (r + 1) (attempt + 1)).result⟩ := by
  conv_lhs => rw [checkGo]
  rw [hop]

theorem checkGo_result_terminal (op : Nat → Except String ℚ) (k : String) :
    ∀ n a, 1 ≤ n → ∃ r, (checkGo op k n a).result = some r ∧
      r.keyword = k ∧ isTerminal r = true := by
  intro n
  induction n with
  | zero => intro a ha; omega
  | succ n ih =>
    intro a _
    match hop : op a with
    | .ok score =>
      refine ⟨successResult k score (a + 1), ?_, rfl, rfl⟩
      rw [checkGo_ok op k n a score hop]
    | .error e =>
      match n with
      | 0 =>
        refine ⟨failureResult k e (a + 1), ?_, rfl, rfl⟩
        rw [checkGo_error_last op k a e hop]
      | m + 1 =>
        obtain ⟨r, hr, hk, ht⟩ := ih (a + 1) (by omega)
        refine ⟨r, ?_, hk, ht⟩
        rw [checkGo_error_retry op k m a e hop]
        exact hr

theorem process_batch_spec (maxConcurrent : Nat) (maxRetries : Int)
    (h : 1 ≤ maxRetries) (op : String → Nat → Except String ℚ) :
    ∀ batch : List String,
      (process_keywords_batch maxConcurrent maxRetries op batch).map
        (fun r => r.keyword) = batch ∧
      ∀ r ∈ process_keywords_batch maxConcurrent maxRetries op batch,
        isTerminal r = true := by
  intro batch
  induction batch with
  | nil => exact ⟨rfl, fun r hr => absurd hr (List.not_mem_nil r)⟩
  | cons k bt ih =>
    obtain ⟨r, hr, hk, ht⟩ :=
      checkGo_result_terminal (op k) k maxRetries.toNat 0 (by omega)
    have hstep : process_keywords_batch maxConcurrent maxRetries op (k :: bt) =
        r :: process_keywords_batch maxConcurrent maxRetries op bt := by
      simp only [process_keywords_batch, List.filterMap_cons,
        check_single_keyword] at hr ⊢
      rw [hr]
    constructor
    · rw [hstep, List.map_cons, hk, ih.1]
    · intro x hx
      rw [hstep] at hx
      rcases List.mem_cons.mp hx with hx | hx
      · exact hx ▸ ht
      · exact ih.2 x hx

/-- C3: for every batch, every concurrency limit and every per-keyword
outcome function (in particular ones where some keywords fail on every
attempt), the batch executor completes with a terminal result, success or
failure-after-retries, for exactly every keyword of the batch; a failure
in one keyword never prevents the others from completing and no
per-keyword error escapes. -/
theorem batch_tolerates_failures (maxConcurrent : Nat) (maxRetries : Int)
    (h : 1 ≤ maxRetries) (op : String → Nat → Except String ℚ)
    (batch : List String) :
    (process_keywords_batch maxConcurrent maxRetries op batch).length =
      batch.length ∧
    ∀ k ∈ batch, ∃ r ∈ process_keywords_batch maxConcurrent maxRetries op batch,
      r.keyword = k ∧ isTerminal r = true := by
  obtain ⟨hmap, hterm⟩ := process_batch_spec maxConcurrent maxRetries h op batch
  constructor
  · have hlen := congrArg List.length hmap
    rw [List.length_map] at hlen
    exact hlen
  · intro k hk
    have hk2 : k ∈ (process_keywords_batch maxConcurrent maxRetries op batch).map
        (fun r => r.keyword) := by
      rw [hmap]; exact hk
    obtain ⟨r, hr, he⟩ := List.mem_map.mp hk2
    exact ⟨r, hr, he, hterm r hr⟩

/-- C3 witness: a batch of two keywords, one of which fails on every
attempt, still yields a terminal result for both. -/
theorem batch_tolerates_failures_witness :
    (1 : Int) ≤ 1 ∧
    ((process_keywords_batch 2 (1 : Int)
        (fun k _ => if k = "a" then .error "boom" else .ok 50)
        ["a", "b"]).length = 2 ∧
      ∀ k ∈ ["a", "b"], ∃ r ∈ process_keywords_batch 2 (1 : Int)
          (fun k _ => if k = "a" then .error "boom" else .ok 50) ["a", "b"],
        r.keyword = k ∧ isTerminal r = true) :=
  ⟨le_refl 1,
   batch_tolerates_failures 2 1 (le_refl 1)
     (fun k _ => if k = "a" then .error "boom" else .ok 50) ["a", "b"]⟩

/-- C10: for every batch and max_retries at least 1 the executor returns
exactly one result per input keyword, and the results appear in exactly
the input order of the batch (asyncio.gather preserves task order). -/
theorem batch_output_order_preserved (maxConcurrent : Nat) (maxRetries : Int)
    (h : 1 ≤ maxRetries) (op : String → Nat → Except String ℚ)
    (batch : List String) :
    (process_keywords_batch maxConcurrent maxRetries op batch).length =
      batch.length ∧
    (process_keywords_batch maxConcurrent maxRetries op batch).map
      (fun r => r.keyword) = batch := by
  obtain ⟨hmap, _⟩ := process_batch_spec maxConcurrent maxRetries h op batch
  have hlen := congrArg List.length hmap
  rw [List.length_map] at hlen
  exact ⟨hlen, hmap⟩

/-- C10 witness: a concrete three-keyword batch with a failing middle
keyword keeps length and order. -/
theorem batch_output_order_preserved_witness :
    (2 : Int) ≥ 1 ∧
    (process_keywords_batch 1 (2 : Int)
        (fun k _ => if k = "y" then .error "down" else .ok 30)
        ["x", "y", "z"]).map (fun r => r.keyword) = ["x", "y", "z"] :=
  ⟨by decide,
   (batch_output_order_preserved 1 2 (by decide)
     (fun k _ => if k = "y" then .error "down" else .ok 30) ["x", "y", "z"]).2⟩

theorem checkGo_always_fails (op : Nat → Except String ℚ) (err : Nat → String)
    (hop : ∀ i, op i = .error (err i)) (k : String) :
    ∀ n a, 1 ≤ n → checkGo op k n a =
      ⟨n, (List.range (n - 1)).map (fun j => 2 ^ (a + j)),
       some (failureResult k (err (a + n - 1)) (a + n))⟩ := by
  intro n
  induction n with
  | zero => intro a ha; omega
  | succ n ih =>
    intro a _
    match n with
    | 0 =>
      rw [checkGo_error_last op k a (err a) (hop a)]
      simp
    | m + 1 =>
      rw [checkGo_error_retry op k m a (err a) (hop a), ih (a + 1) (by omega)]
      dsimp only
      rw [show a + 1 + (m + 1) = a + (m + 2) from by omega]
      simp only [Nat.add_sub_cancel]
      have hsl : (List.range (m + 1)).map (fun j => 2 ^ (a + j)) =
          2 ^ a :: (List.range m).map (fun j => 2 ^ (a + 1 + j)) := by
        rw [List.range_succ_eq_map]
        simp only [List.map_cons, List.map_map, Nat.add_zero]
        refine congrArg₂ List.cons rfl ?_
        refine List.map_congr_left (fun j _ => ?_)
        simp only [Function.comp_apply]
        congr 1
        omega
      rw [hsl]

theorem fullGo_ok (op : Nat → Except String (List FullRow))
    (batch : List String) (remaining rc : Nat) (rows : List FullRow)
    (hop : op rc = .ok rows) :
    fullGo op batch (remaining + 1) rc = ⟨rc + 1, [], rows⟩ := by
  cases remaining with
  | zero =>
    conv_lhs => rw [fullGo]
    rw [hop]
  | succ r =>
    conv_lhs => rw [fullGo]
    rw [hop]

theorem fullGo_error_last (op : Nat → Except String (List FullRow))
    (batch : List String) (rc : Nat) (e : String) (hop : op rc = .error e) :
    fullGo op batch 1 rc =
      ⟨rc + 1, [], batch.map (fun k => fullFailureRow k e)⟩ := by
  conv_lhs => rw [fullGo]
  rw [hop]

theorem fullGo_error_retry (op : Nat → Except String (List FullRow))
    (batch : List String) (r rc : Nat) (e : String) (hop : op rc = .error e) :
    fullGo op batch (r + 2) rc =
      ⟨(fullGo op batch (r + 1) (rc + 1)).attempts,
       2 ^ (rc + 1) * 10 :: (fullGo op batch (r + 1) (rc + 1)).sleeps,
       (fullGo op batch (r + 1) (rc + 1)).rows⟩ := by
  conv_lhs => rw [fullGo]
  rw [hop]

theorem fullGo_always_fails (op : Nat → Except String (List FullRow))
    (err : Nat → String) (hop : ∀ i, op i = .error (err i))
    (batch : List String) :
    ∀ n rc, 1 ≤ n → fullGo op batch n rc =
      ⟨rc + n, (List.range (n - 1)).map (fun j => 2 ^ (rc + 1 + j) * 10),
       batch.map (fun k => fullFailureRow k (err (rc + n - 1)))⟩ := by
  intro n
  induction n with
  | zero => intro rc ha; omega
  | succ n ih =>
    intro rc _
    match n with
    | 0 =>
      rw [fullGo_error_last op batch rc (err rc) (hop rc)]
      simp
    | m + 1 =>
      rw [fullGo_error_retry op batch m rc (err rc) (hop rc),
        ih (rc + 1) (by omega)]
      dsimp only
      rw [show rc + 1 + (m + 1) = rc + (m + 2) from by omega]
      simp only [Nat.add_sub_cancel]
      have hsl : (List.range (m + 1)).map (fun j => 2 ^ (rc + 1 + j) * 10) =
          2 ^ (rc + 1) * 10 ::
            (List.range m).map (fun j => 2 ^ (rc + 1 + 1 + j) * 10) := by
        rw [List.range_succ_eq_map]
        simp only [List.map_cons, List.map_map, Nat.add_zero]
        refine congrArg₂ List.cons rfl ?_
        refine List.map_congr_left (fun j _ => ?_)
        simp only [Function.comp_apply]
        congr 2
        omega
      rw [hsl]

/-- C1 counterexample: the claim says exhaustion produces exactly one
failure record carrying the last error, but the batch-level retry
controller of check_google_trends_full appends one failure record per
keyword of its batch: with maxAttempts 1 and a two-keyword batch it
produces two failure records, not one. -/
theorem retry_single_record_counterexample :
    (full_batch_retry (fun _ => Except.error "boom") 1 ["a", "b"]).rows =
      [fullFailureRow "a" "boom", fullFailureRow "b" "boom"] ∧
    (full_batch_retry (fun _ => Except.error "boom") 1 ["a", "b"]).rows.length ≠ 1 := by
  constructor
  · rw [full_batch_retry, fullGo_error_last _ _ _ "boom" rfl]
    rfl
  · rw [full_batch_retry, fullGo_error_last _ _ _ "boom" rfl]
    decide

/-- C1 amended: on an operation that fails on every attempt, the
per-keyword retry controller of check_single_keyword makes exactly
maxAttempts attempts, sleeps 2 to the power attemptIndex seconds between
consecutive attempts (attemptIndex from 0, so 1, 2, ..., up to
2 to the power maxAttempts minus 2), and returns exactly one failure
record carrying the last error; the batch-level controller of
check_google_trends_full also makes exactly maxAttempts attempts, with the
same doubling delay pattern scaled to 20-second units (its sleep after the
i-th failure is 2 to the power i times 10 seconds, i from 1), and on
exhaustion appends one failure record per keyword of the batch, each
carrying the last error; with maxAttempts 1 there is one attempt, no sleep
and immediate failure records in both. -/
theorem retry_exhaustion_behaviour (n : Nat) (h : 1 ≤ n)
    (op : Nat → Except String ℚ) (err : Nat → String)
    (hop : ∀ i, op i = .error (err i)) (k : String)
    (fop : Nat → Except String (List FullRow)) (ferr : Nat → String)
    (hfop : ∀ i, fop i = .error (ferr i)) (batch : List String) :
    check_single_keyword op (n : Int) k =
      ⟨n, (List.range (n - 1)).map (fun j => 2 ^ j),
       some (failureResult k (err (n - 1)) n)⟩ ∧
    full_batch_retry fop n batch =
      ⟨n, (List.range (n - 1)).map (fun j => 2 ^ (j + 1) * 10),
       batch.map (fun kw => fullFailureRow kw (ferr (n - 1)))⟩ := by
  constructor
  · rw [check_single_keyword, Int.toNat_natCast,
      checkGo_always_fails op err hop k n 0 h]
    simp only [Nat.zero_add]
  · rw [full_batch_retry, fullGo_always_fails fop ferr hfop batch n 0 h]
    simp only [Nat.zero_add, Nat.add_comm 1]

/-- C1 witness: three always-failing attempts give exactly the delays 1
and 2 seconds per keyword, and 20 and 40 seconds per batch, with the
failure records carrying the last error. -/
theorem retry_exhaustion_behaviour_witness :
    1 ≤ 3 ∧
    check_single_keyword (fun _ => Except.error "boom") ((3 : Nat) : Int) "k" =
      ⟨3, [1, 2], some (failureResult "k" "boom" 3)⟩ ∧
    full_batch_retry (fun _ => Except.error "net") 3 ["a", "b"] =
      ⟨3, [20, 40], [fullFailureRow "a" "net", fullFailureRow "b" "net"]⟩ := by
  have h := retry_exhaustion_behaviour 3 (by decide)
    (fun _ => Except.error "boom") (fun _ => "boom") (fun _ => rfl) "k"
    (fun _ => Except.error "net") (fun _ => "net") (fun _ => rfl) ["a", "b"]
  refine ⟨by decide, ?_, ?_⟩
  · rw [h.1]
    rfl
  · rw [h.2]
    rfl

/-- C6 counterexample: a negative batch size does not fail fast and is not
reported: the Python range over a negative step is empty, so the pipeline
returns an empty result set with no keyword evaluated and no error. -/
theorem batch_size_failfast_counterexample :
    process_all_keywords 5 3 (fun _ _ => Except.ok 50) ["a"] (-1) =
      Except.ok [] ∧
    process_all_keywords 5 3 (fun _ _ => Except.ok 50) ["a"] (-1) ≠
      Except.error PyErr.valueError := by
  have h1 : process_all_keywords 5 3 (fun _ _ => Except.ok 50) ["a"] (-1) =
      Except.ok [] := rfl
  refine ⟨h1, ?_⟩
  rw [h1]
  exact fun h => Except.noConfusion h

/-- C6 amended: a batch size of exactly 0 raises an uncaught ValueError
from range before any keyword is evaluated, but a negative batch size is
not a reported configuration error: the batch loop body never runs and the
pipeline completes with an empty result set, every keyword silently
unprocessed. -/
theorem nonpositive_batch_size_behaviour (maxConcurrent : Nat)
    (maxRetries : Int) (op : String → Nat → Except String ℚ)
    (keywords : List String) (b : Int) (hb : b ≤ 0) :
    (b = 0 → process_all_keywords maxConcurrent maxRetries op keywords b =
      .error .valueError) ∧
    (b < 0 → process_all_keywords maxConcurrent maxRetries op keywords b =
      .ok []) := by
  constructor
  · intro h0
    subst h0
    rfl
  · intro hneg
    simp only [process_all_keywords, makeBatches,
      if_neg (show ¬ b = 0 from by omega), if_pos hneg]
    rfl

/-- C6 witness: batch size 0 errors out and batch size -1 silently
completes empty on a nonempty keyword list. -/
theorem nonpositive_batch_size_behaviour_witness :
    process_all_keywords 5 3 (fun _ _ => Except.ok 50) ["a", "b"] 0 =
      Except.error PyErr.valueError ∧
    process_all_keywords 5 3 (fun _ _ => Except.ok 50) ["a", "b"] (-1) =
      Except.ok [] :=
  ⟨(nonpositive_batch_size_behaviour 5 3 (fun _ _ => Except.ok 50)
      ["a", "b"] 0 (by decide)).1 rfl,
   (nonpositive_batch_size_behaviour 5 3 (fun _ _ => Except.ok 50)
      ["a", "b"] (-1) (by decide)).2 (by decide)⟩

/-- C8 counterexample: the trend scorer does not apply the claimed
problem-solving bonus: a keyword containing the problem term error scores
exactly the same as a neutral keyword of the same length bucket, so the
five additional bonuses are not all applied by each scorer. -/
theorem five_bonus_counterexample :
    anyTerm (lowerChars "qqqq error") problem_terms = true ∧
    anyTerm (lowerChars "qqqqqqqqq") problem_terms = false ∧
    calculate_mock_trend_score "qqqq error" 0 = 20 ∧
    calculate_mock_trend_score "qqqqqqqqq" 0 = 20 := by
  refine ⟨by decide, by decide, ?_, ?_⟩ <;> with_unfolding_all rfl

/-- C8 amended: the five bonuses are split between the two scorers and are
independently stackable within each: the trend scorer adds the
command-related bonus of 30 and the job-related bonus of 15 on top of its
core score, and the content-priority scorer adds the commercial-intent
bonus of 12, the problem-solving bonus of 20 and the trending-technology
bonus of 18 on top of its core score, each bonus whenever its own
case-insensitive term condition is met; neither scorer applies all five. -/
theorem bonus_split (k : String) (j : ℚ) :
    mock_trend_pre k j = mock_core k
      + (if anyTerm (lowerChars k) command_terms then 30 else 0)
      + (if anyTerm (lowerChars k) job_terms then 15 else 0) + j ∧
    priority_pre k j = priority_core k
      + (if anyTerm (lowerChars k) commercial_terms then 12 else 0)
      + (if anyTerm (lowerChars k) problem_terms then 20 else 0)
      + (if anyTerm (lowerChars k) trending_terms then 18 else 0) + j := by
  constructor
  · simp only [mock_trend_pre]
    split_ifs <;> ring
  · simp only [priority_pre]
    split_ifs <;> ring

end TopicGen
